import Mathlib

/-!
Verification development for the ElasticArmor authorization and proxy core.

The definitions below are a shallow embedding of the Python sources
`lib/elasticarmor/util/auth.py`, `lib/elasticarmor/util/http.py` and
`lib/elasticarmor/request/indices_apis.py`.  Python exceptions are modelled
with an explicit error channel (`Except PyErr`), mutable objects with
explicit state records, and machine-level collaborators that are not part
of the sources (DNS, LDAP, the Elasticsearch transport) with function
parameters.
-/

namespace ElasticArmor

/-! Python string primitives.  These mirror the Python `str` methods the
sources use (`split`, `strip`, `lower`, `replace`, `join`, slicing, `int()`),
implemented by structural recursion over the character list so that concrete
runs reduce inside the kernel. -/

/-- Helper for `pySplitChar`: scan the characters, cutting at the separator. -/
def pySplitCharAux (sep : Char) : List Char → List Char → List (List Char)
  | [], acc => [acc.reverse]
  | c :: cs, acc =>
    if c == sep then acc.reverse :: pySplitCharAux sep cs []
    else pySplitCharAux sep cs (c :: acc)

/-- Python `s.split(sep)` for a one-character separator. -/
def pySplitChar (sep : Char) (s : String) : List String :=
  (pySplitCharAux sep s.data []).map String.mk

/-- Helper for `pySplitCommaSpace`: left-to-right non-overlapping scan. -/
def pySplitCommaSpaceAux : List Char → List Char → List (List Char)
  | [], acc => [acc.reverse]
  | [c], acc => [(c :: acc).reverse]
  | c1 :: c2 :: cs, acc =>
    if c1 == ',' && c2 == ' ' then acc.reverse :: pySplitCommaSpaceAux cs []
    else pySplitCommaSpaceAux (c2 :: cs) (c1 :: acc)

/-- Python `s.split(', ')`, the separator used by the header container. -/
def pySplitCommaSpace (s : String) : List String :=
  (pySplitCommaSpaceAux s.data []).map String.mk

/-- Python `s.strip()`: remove leading and trailing whitespace. -/
def pyStrip (s : String) : String :=
  String.mk (((s.data.dropWhile Char.isWhitespace).reverse.dropWhile Char.isWhitespace).reverse)

/-- Python `s.lower()`. -/
def pyLower (s : String) : String :=
  String.mk (s.data.map Char.toLower)

/-- Python `s.startswith(c)` for a one-character pattern. -/
def pyStartsChar (c : Char) (s : String) : Bool :=
  match s.data with
  | d :: _ => d == c
  | [] => false

/-- Python `s[1:]`: drop the first character. -/
def pyDrop1 (s : String) : String :=
  String.mk (s.data.drop 1)

/-- Python `s.rstrip(c)` for a one-character strip set. -/
def pyRStripChar (c : Char) (s : String) : String :=
  String.mk ((s.data.reverse.dropWhile (fun d => d == c)).reverse)

/-- Helper for `pySplitStr`: left-to-right non-overlapping scan for a
multi-character separator.  The `Nat` argument is a structural-recursion
bound; it starts above the character count and each step consumes it while
dropping at least one character, so it never reaches zero for the non-empty
separators the sources use. -/
def pySplitStrAux (sep : List Char) : Nat → List Char → List Char → List (List Char)
  | 0, _, acc => [acc.reverse]
  | _ + 1, [], acc => [acc.reverse]
  | fuel + 1, c :: cs, acc =>
    if sep.isPrefixOf (c :: cs) then
      acc.reverse :: pySplitStrAux sep fuel ((c :: cs).drop sep.length) []
    else pySplitStrAux sep fuel cs (c :: acc)

/-- Python `s.split(sep)` for a non-empty multi-character separator. -/
def pySplitStr (sep s : String) : List String :=
  (pySplitStrAux sep.data (s.data.length + 1) s.data []).map String.mk

/-- Helper for `pyReplace` with an empty pattern (Python inserts the
replacement around every character). -/
def pyReplaceEmpty (new : List Char) : List Char → List Char
  | [] => new
  | c :: cs => new ++ c :: pyReplaceEmpty new cs

/-- Python `sep.join(parts)`. -/
def pyJoin (sep : String) : List String → String
  | [] => ""
  | x :: xs => xs.foldl (fun acc y => acc ++ sep ++ y) x

/-- Python `s.replace(old, new)`: for a non-empty pattern this is
`new.join(s.split(old))`, which matches the left-to-right non-overlapping
replacement Python performs. -/
def pyReplace (s old new : String) : String :=
  match old.data with
  | [] => String.mk (pyReplaceEmpty new.data s.data)
  | _ :: _ => pyJoin new (pySplitStr old s)

/-- Python `int(s)` for base 10: optional surrounding whitespace, optional
sign, at least one decimal digit; anything else raises ValueError (`none`). -/
def pyInt (s : String) : Option Int :=
  let t := pyStrip s
  let (neg, digits) :=
    if pyStartsChar '-' t then (true, (pyDrop1 t).data)
    else if pyStartsChar '+' t then (false, (pyDrop1 t).data)
    else (false, t.data)
  if digits.isEmpty then none
  else if (digits.all Char.isDigit) = false then none
  else
    let n : Nat := digits.foldl (fun acc c => acc * 10 + (c.toNat - 48)) 0
    some (if neg then -(n : Int) else (n : Int))

/-- Error channel for the Python exceptions the embedded code can raise. -/
inductive PyErr where
  | restrictionError (msg : String)
  | typeError (msg : String)
  | permissionError (msg : String)
  | valueError (msg : String)
  | indexError
  deriving Repr, DecidableEq

/-- Modelled from the spec: `pattern_match` lives in `elasticarmor/util/__init__.py`,
which is not part of the sources; section 4.1 of the spec describes it as
shell-glob matching where `*` matches any run of characters and `?` any one
character, case-sensitive otherwise. -/
def globMatch : List Char → List Char → Bool
  | [], [] => true
  | [], _ :: _ => false
  | p :: ps, [] => if p == '*' then globMatch ps [] else false
  | p :: ps, c :: cs =>
    if p == '*' then globMatch ps (c :: cs) || globMatch (p :: ps) cs
    else if p == '?' then globMatch ps cs
    else p == c && globMatch ps cs
termination_by ps cs => (ps.length, cs.length)

/-- Modelled from the spec: `match(pattern, subject)` with shell-glob semantics. -/
def pattern_match (pattern subject : String) : Bool :=
  globMatch pattern.data subject.data

/-- State of a `Restriction` object (`auth.py`, class `Restriction`):
the raw source string plus the attributes filled in by `_parse_restriction`.
`read_only` starts as Python `None` (here `none`). -/
structure Restriction where
  parsed : Bool := false
  read_only : Option Bool := none
  index_patterns : List String := []
  index_includes : List String := []
  index_excludes : List String := []
  type_patterns : List String := []
  type_includes : List String := []
  type_excludes : List String := []
  field_patterns : List String := []
  field_includes : List String := []
  field_excludes : List String := []
  raw_restriction : String
  deriving Repr, DecidableEq

/-- `Restriction.__init__`: a fresh object holding only the raw source. -/
def Restriction.fromRaw (raw : String) : Restriction :=
  { raw_restriction := raw }

/-- One scope segment loop of `_parse_restriction`: split on commas, strip each
token, and sort it into (plain patterns, includes, excludes) by its
`+`/`-` prefix, dropping the prefix character. -/
def classifySeg (seg : String) : List String × List String × List String :=
  ((pySplitChar ',' seg).map pyStrip).foldl
    (fun acc t =>
      if pyStartsChar '-' t then (acc.1, acc.2.1, acc.2.2 ++ [pyDrop1 t])
      else if pyStartsChar '+' t then (acc.1, acc.2.1 ++ [pyDrop1 t], acc.2.2)
      else (acc.1 ++ [t], acc.2.1, acc.2.2))
    ([], [], [])

/-- The part of `_parse_restriction` after the segment-count guard: scope
segment loops, the per-scope plain-pattern checks, and the final attribute
assignments.  Python evaluates `parts[1]` unconditionally, so a missing
second segment is an IndexError. -/
def Restriction.parseScopes (r : Restriction) (parts : List String) : Except PyErr Restriction :=
  match parts.get? 1 with
  | none => Except.error PyErr.indexError
  | some seg1 =>
    let (ips, iis, ies) := classifySeg seg1
    if ips.isEmpty then
      Except.error (PyErr.restrictionError
        ("Restriction \"" ++ r.raw_restriction ++ "\" does not provide any index patterns"))
    else
      let typeStep : Except PyErr (List String × List String × List String) :=
        if parts.length > 2 then
          match parts.get? 2 with
          | none => Except.error PyErr.indexError
          | some seg2 =>
            let (tps, tis, tes) := classifySeg seg2
            if tps.isEmpty then
              Except.error (PyErr.restrictionError
                ("Restriction \"" ++ r.raw_restriction ++ "\" does not provide any document type patterns"))
            else Except.ok (tps, tis, tes)
        else Except.ok ([], [], [])
      match typeStep with
      | Except.error e => Except.error e
      | Except.ok (tps, tis, tes) =>
        let fieldStep : Except PyErr (List String × List String × List String) :=
          if parts.length > 3 then
            match parts.get? 3 with
            | none => Except.error PyErr.indexError
            | some seg3 =>
              let (fps, fis, fes) := classifySeg seg3
              if fps.isEmpty then
                Except.error (PyErr.restrictionError
                  ("Restriction \"" ++ r.raw_restriction ++ "\" does not provide any document field patterns"))
              else Except.ok (fps, fis, fes)
          else Except.ok ([], [], [])
        match fieldStep with
        | Except.error e => Except.error e
        | Except.ok (fps, fis, fes) =>
          Except.ok { r with
            parsed := true
            read_only := some (parts.headD "" == "read")
            index_patterns := ips, index_includes := iis, index_excludes := ies
            type_patterns := tps, type_includes := tis, type_excludes := tes
            field_patterns := fps, field_includes := fis, field_excludes := fes }

/-- `_parse_restriction` applied to an already-split source.  The guard is the
source's `if not 1 > len(parts) <= 4`, a chained comparison equivalent to
`not (1 > len(parts) and len(parts) <= 4)`. -/
def Restriction.parseParts (r : Restriction) (parts : List String) : Except PyErr Restriction :=
  if ¬ (1 > parts.length ∧ parts.length ≤ 4) then
    Except.error (PyErr.restrictionError
      ("Invalid restriction \"" ++ r.raw_restriction ++ "\""))
  else r.parseScopes parts

/-- `_parse_restriction`: memoized entry point; returns the (would-be) updated
object state. -/
def Restriction.parse_restriction (r : Restriction) : Except PyErr Restriction :=
  if r.parsed then Except.ok r
  else r.parseParts (pySplitChar '/' r.raw_restriction)

/-- `_apply_restriction`: the single-tier check of a subject against plain
patterns, includes and excludes. -/
def apply_restriction (subject : String) (patterns includes excludes : List String) : Bool :=
  if (patterns.any fun pattern => pattern_match pattern subject) = false then false
  else if (excludes.any fun pattern => pattern_match pattern subject) = false then true
  else includes.any fun pattern => pattern_match pattern subject

/-- `_check_permission`: scope-presence rules, then the index, type and field
tiers top-down. -/
def Restriction.check_permission (r : Restriction) (index : String)
    (document field : Option String) : Bool :=
  if (field.isNone ∧ r.field_patterns ≠ []) ∨ (document.isNone ∧ r.type_patterns ≠ []) then
    false
  else if (field.isSome ∧ r.field_patterns = []) ∨ (document.isSome ∧ r.type_patterns = []) then
    false
  else if (apply_restriction index r.index_patterns r.index_includes r.index_excludes) = false then
    false
  else
    match document with
    | none => true
    | some doc =>
      if (apply_restriction doc r.type_patterns r.type_includes r.type_excludes) = false then
        false
      else
        match field with
        | none => true
        | some f => apply_restriction f r.field_patterns r.field_includes r.field_excludes

/-- `permits_read`: parse lazily, then run the tier evaluation. -/
def Restriction.permits_read (r : Restriction) (index : String)
    (document : Option String := none) (field : Option String := none) : Except PyErr Bool :=
  match r.parse_restriction with
  | Except.error e => Except.error e
  | Except.ok r2 => Except.ok (r2.check_permission index document field)

/-- `permits_write`: parse lazily, fail closed when read-only, else run the
tier evaluation.  `if self._read_only:` is Python truthiness, so the initial
`None` counts as false. -/
def Restriction.permits_write (r : Restriction) (index : String)
    (document : Option String := none) (field : Option String := none) : Except PyErr Bool :=
  match r.parse_restriction with
  | Except.error e => Except.error e
  | Except.ok r2 =>
    if r2.read_only.getD false then Except.ok false
    else Except.ok (r2.check_permission index document field)

/-- A role: name plus its ordered restrictions (`ElasticRole` after
`get_role_memberships` wrapped its restriction strings). -/
structure Role where
  name : String
  restrictions : List Restriction
  deriving Repr, DecidableEq

/-- State of a `Client` object (`auth.py`, class `Client`). -/
structure Client where
  address : String
  port : Nat
  name : Option String := none
  authenticated : Bool := false
  username : Option String := none
  password : Option String := none
  groups : Option (List String) := none
  roles : Option (List Role) := none
  deriving Repr, DecidableEq

/-- Lazy `any(...)` over a generator whose body can raise: stops at the first
true result or the first exception. -/
def exceptAny : List α → (α → Except PyErr Bool) → Except PyErr Bool
  | [], _ => Except.ok false
  | x :: xs, f =>
    match f x with
    | Except.error e => Except.error e
    | Except.ok true => Except.ok true
    | Except.ok false => exceptAny xs f

/-- `Client.can_read`: `any` over every restriction of every role.  Iterating
`self.roles` when it is Python `None` raises a TypeError. -/
def Client.can_read (c : Client) (index : String)
    (document : Option String := none) (field : Option String := none) : Except PyErr Bool :=
  match c.roles with
  | none => Except.error (PyErr.typeError "NoneType object is not iterable")
  | some roles =>
    exceptAny (roles.flatMap fun role => role.restrictions)
      (fun restriction => restriction.permits_read index document field)

/-- `Client.can_write`: same shape as `can_read` over `permits_write`. -/
def Client.can_write (c : Client) (index : String)
    (document : Option String := none) (field : Option String := none) : Except PyErr Bool :=
  match c.roles with
  | none => Except.error (PyErr.typeError "NoneType object is not iterable")
  | some roles =>
    exceptAny (roles.flatMap fun role => role.restrictions)
      (fun restriction => restriction.permits_write index document field)

/-- State of the `Auth` manager.  `allow_from` is the address-to-allowed-ports
configuration: a stored `none` is Python `None` (all ports), a stored list is
an explicit port collection.  The group and role backends are collaborators
reached over the network; they are modelled as functions whose `Except.error`
is the exception type the source catches (`ldap.LDAPError` resp.
`requests.RequestException`). -/
structure Auth where
  allow_from : List (String × Option (List Nat))
  group_backend : Option (Client → Except Unit (List String))
  role_backend : Client → Except Unit (Option (List Role))

/-- `Auth.populate`: best-effort fetch of group and role memberships.  Groups
are fetched only when a group backend is configured and the username is
known (else set to `[]`); a backend error leaves them untouched.  Roles are
fetched only when groups ended up non-null; a caught backend error leaves
them untouched.  When the role fetch succeeds but returned Python `None`
(the transport yielded no response), the success-branch debug log evaluates
`', '.join(r.name for r in client.roles)` and iterating `None` raises an
uncaught TypeError that propagates out of `populate`. -/
def Auth.populate (a : Auth) (c : Client) : Except PyErr Client :=
  let c1 :=
    match a.group_backend, c.username with
    | some gb, some _ =>
      match gb c with
      | Except.ok gs => { c with groups := some gs }
      | Except.error _ => c
    | _, _ => { c with groups := some [] }
  if c1.groups.isSome then
    match a.role_backend c1 with
    | Except.ok none => Except.error (PyErr.typeError "NoneType object is not iterable")
    | Except.ok (some roles) => Except.ok { c1 with roles := some roles }
    | Except.error _ => Except.ok c1
  else Except.ok c1

/-- Shared tail of `Auth.authenticate`: optional population (whose uncaught
TypeError propagates), then the transition to the authenticated state and
the `True` return value. -/
def Auth.finish (a : Auth) (populate : Bool) (c : Client) : Except PyErr (Bool × Client) :=
  match (if populate then a.populate c else Except.ok c) with
  | Except.error e => Except.error e
  | Except.ok c2 => Except.ok (true, { c2 with authenticated := true })

/-- `Auth.authenticate`: credential-less clients are checked against
`allow_from` (`.get(address, [])`, then `allowed_ports is not None and port
not in allowed_ports` fails); on success the display name is resolved by a
reverse lookup (`resolver`, `none` modelling the caught IOError fallback to
the raw address) and formatted `host:port` for an explicit port list, bare
`host` for a `None` entry.  Clients with credentials get their username as
name.  Returns the success flag together with the resulting client state,
or the exception `populate` let escape. -/
def Auth.authenticate (a : Auth) (resolver : String → Option String)
    (populate : Bool) (c : Client) : Except PyErr (Bool × Client) :=
  if c.username.isNone || c.password.isNone then
    match (a.allow_from.find? (fun p => p.fst == c.address)).map Prod.snd with
    | none => Except.ok (false, c)
    | some (some allowed_ports) =>
      if (allowed_ports.contains c.port) = false then Except.ok (false, c)
      else
        let hostname := (resolver c.address).getD c.address
        a.finish populate { c with name := some (hostname ++ ":" ++ toString c.port) }
    | some none =>
      let hostname := (resolver c.address).getD c.address
      a.finish populate { c with name := some hostname }
  else a.finish populate { c with name := c.username }

/-! `http.py`: the header container and the framing check.  An `HttpHeaders`
object stores, per lower-cased header name, the single string its parser
accumulated by joining repeated occurrences with `, ` (the
`httplib.HTTPMessage` behaviour the class builds on). -/

/-- Header container state: association list from lower-cased header name to
the `, `-joined value. -/
structure HttpHeaders where
  dict : List (String × String)
  deriving Repr, DecidableEq

/-- The underlying `rfc822` dictionary lookup (name lower-cased). -/
def HttpHeaders.lookup (h : HttpHeaders) (name : String) : Option String :=
  (h.dict.find? (fun p => p.fst == pyLower name)).map Prod.snd

/-- Last `, `-segment of a joined value, i.e.
`value.split(', ')[-1] if ', ' in value else value`. -/
def lastSeg (value : String) : String :=
  (pySplitCommaSpace value).getLastD value

/-- `HttpHeaders.__getitem__`: last-seen occurrence; `none` models the
KeyError for an absent header. -/
def HttpHeaders.getitem (h : HttpHeaders) (name : String) : Option String :=
  (h.lookup name).map lastSeg

/-- `HttpHeaders.getheader` (and its alias `get`): last-seen occurrence or
the default. -/
def HttpHeaders.getheader (h : HttpHeaders) (name : String) (default : String) : String :=
  match h.lookup name with
  | some value => lastSeg value
  | none => default

/-- `HttpHeaders.getheaders`: all occurrences, or `[]` when absent. -/
def HttpHeaders.getheaders (h : HttpHeaders) (name : String) : List String :=
  match h.lookup name with
  | some value => pySplitCommaSpace value
  | none => []

/-- `name in headers` (membership is on the lower-cased dictionary). -/
def HttpHeaders.containsHeader (h : HttpHeaders) (name : String) : Bool :=
  (h.lookup name).isSome

/-- `del headers[name]`: remove the header if present (a no-op otherwise,
as in `rfc822.Message.__delitem__`). -/
def HttpHeaders.delitem (h : HttpHeaders) (name : String) : HttpHeaders :=
  { dict := h.dict.filter (fun p => !(p.fst == pyLower name)) }

/-- `headers[name] = value`: replace any existing occurrences. -/
def HttpHeaders.setitem (h : HttpHeaders) (name value : String) : HttpHeaders :=
  { dict := (h.delitem name).dict ++ [(pyLower name, value)] }

/-- `HttpHeaders.extend_via_field`: format the new entry, read the existing
`Via` value through `get` (which keeps only the last `, `-segment) and store
the join. -/
def HttpHeaders.extend_via_field (h : HttpHeaders) (received_protocol received_by : String)
    (comment : Option String) : HttpHeaders :=
  let formatted_values :=
    received_protocol ++ " " ++ received_by ++
      (match comment with
       | some cm => if cm.data.isEmpty then "" else " " ++ cm
       | none => "")
  let intermediaries := h.getheader "Via" ""
  if intermediaries.data.isEmpty then h.setitem "Via" formatted_values
  else h.setitem "Via" (intermediaries ++ ", " ++ formatted_values)

/-- Value stored for one connection option by
`extract_connection_options`: a plain header value, the parsed `Keep-Alive`
table, or Python `None` for the implicit `Keep-Alive`/`close` markers. -/
inductive ConnOpt where
  | str (value : String)
  | table (pairs : List (String × String))
  | null
  deriving Repr, DecidableEq

/-- Python `dict` update for string pairs: later duplicates override. -/
def dictUpdate (m : List (String × String)) (kv : String × String) : List (String × String) :=
  if m.any (fun q => q.fst == kv.fst) then
    m.map (fun q => if q.fst == kv.fst then (q.fst, kv.snd) else q)
  else m ++ [kv]

/-- The `Keep-Alive` parse in `extract_connection_options`:
`dict(tuple(v.strip() for v in value.split('=')) for value in ...)`; a tuple
whose length is not two makes `dict` raise ValueError. -/
def parseKeepAlive (values : List String) : Except PyErr (List (String × String)) :=
  match values.mapM (fun value =>
      match (pySplitChar '=' value).map pyStrip with
      | [k, v] => Except.ok (k, v)
      | l => Except.error (PyErr.valueError
          ("dictionary update sequence element has length " ++ toString l.length))) with
  | Except.error e => Except.error e
  | Except.ok pairs => Except.ok (pairs.foldl dictUpdate [])

/-- `CaseInsensitiveDict.__setitem__`: replace by case-insensitive key. -/
def ciSet (m : List (String × ConnOpt)) (k : String) (v : ConnOpt) : List (String × ConnOpt) :=
  if m.any (fun q => pyLower q.fst == pyLower k) then
    m.map (fun q => if pyLower q.fst == pyLower k then (q.fst, v) else q)
  else m ++ [(k, v)]

/-- One iteration of the `extract_connection_options` loop over the options
named by the `Connection` header. -/
def HttpHeaders.connStep (s : List (String × ConnOpt) × HttpHeaders) (option : String) :
    Except PyErr (List (String × ConnOpt) × HttpHeaders) :=
  let (options, h) := s
  if h.containsHeader option then
    if pyLower option == "keep-alive" then
      match parseKeepAlive (h.getheaders option) with
      | Except.error e => Except.error e
      | Except.ok pairs => Except.ok (ciSet options option (ConnOpt.table pairs), h.delitem option)
    else
      match h.getitem option with
      | some value => Except.ok (ciSet options option (ConnOpt.str value), h.delitem option)
      | none => Except.error PyErr.indexError
  else if pyLower option == "keep-alive" then Except.ok (ciSet options option ConnOpt.null, h)
  else if pyLower option == "close" then Except.ok (ciSet options option ConnOpt.null, h)
  else Except.ok (options, h)

/-- The `for option in self.getheaders('Connection')` loop. -/
def connLoop : List String → (List (String × ConnOpt) × HttpHeaders) →
    Except PyErr (List (String × ConnOpt) × HttpHeaders)
  | [], s => Except.ok s
  | o :: os, s =>
    match HttpHeaders.connStep s o with
    | Except.error e => Except.error e
    | Except.ok s1 => connLoop os s1

/-- `HttpHeaders.extract_connection_options`: run the loop, then delete the
`Connection` header itself, but only when at least one option was recorded
(`if options:`).  Returns the option map and the resulting header state. -/
def HttpHeaders.extract_connection_options (h : HttpHeaders) :
    Except PyErr (List (String × ConnOpt) × HttpHeaders) :=
  match connLoop (h.getheaders "Connection") ([], h) with
  | Except.error e => Except.error e
  | Except.ok s =>
    if s.fst.isEmpty then Except.ok s
    else Except.ok (s.fst, s.snd.delitem "Connection")

/-- `HttpContext.__init__` header selection: the response's headers when a
response is paired, else the request's. -/
def headersOf (request : HttpHeaders) (response : Option HttpHeaders) : HttpHeaders :=
  match response with
  | some r => r
  | none => request

/-- The lazy `any(int(v) != content_length for v in ...)`: `none` models a
ValueError raised by `int`, `some b` the value of `any`. -/
def anyNeqInt : List String → Int → Option Bool
  | [], _ => some false
  | v :: vs, n =>
    match pyInt v with
    | none => none
    | some m => if m ≠ n then some true else anyNeqInt vs n

/-- The Content-Length `try` block of `has_proper_framing`: `false` means one
of its early `return False` paths fired (negative value, mismatching
occurrence, or a ValueError), `true` means it fell through. -/
def clPass (headers : HttpHeaders) : Bool :=
  match headers.getitem "Content-Length" with
  | none => true
  | some s =>
    match pyInt s with
    | none => false
    | some content_length =>
      if content_length < 0 then false
      else
        match anyNeqInt (headers.getheaders "Content-Length") content_length with
        | none => false
        | some b => !b

/-- `HttpContext.has_proper_framing` (RFC 7230 section 3.3.3 articles 3/4). -/
def has_proper_framing (request : HttpHeaders) (response : Option HttpHeaders) : Bool :=
  let headers := headersOf request response
  let content_length_found := headers.containsHeader "Content-Length"
  let clCheck := if content_length_found then clPass headers else true
  if clCheck = false then false
  else if headers.containsHeader "Transfer-Encoding" then
    if content_length_found ||
        (response.isNone &&
          ((pyLower (pyStrip ((headers.getitem "Transfer-Encoding").getD ""))) != "chunked")) then
      false
    else true
  else true

/-! `indices_apis.py`: the custom inspection of `GetIndexApiRequest`.
Its collaborators (`FilterString`, `Client.create_filter_string`,
`Client.can`, `ElasticRequest.get_match`) live outside the provided sources
and are modelled from the spec. -/

/-- Modelled from the spec: a `FilterString` (from `elasticarmor.util.elastic`,
not under the sources) carries index patterns; `iter_patterns` yields them in
order, its string form joins them with commas, and it is truthy when it has
at least one pattern. -/
structure FilterString where
  patterns : List String
  deriving Repr, DecidableEq

/-- Modelled from the spec: `str(filter_string)`. -/
def FilterString.toStr (fs : FilterString) : String :=
  pyJoin "," fs.patterns

/-- `GetIndexApiRequest.index_settings`: keyword to permission name, in the
source's literal order. -/
def index_settings : List (String × String) :=
  [("_settings", "api/indices/get/settings"),
   ("_mappings", "api/indices/get/mappings"),
   ("_warmers", "api/indices/get/warmers"),
   ("_aliases", "api/indices/get/aliases")]

/-- `missing_permissions.setdefault(permission, []).append(index)`. -/
def addMissing : List (String × List String) → String → String → List (String × List String)
  | [], permission, index => [(permission, [index])]
  | q :: rest, permission, index =>
    if q.fst == permission then (q.fst, q.snd ++ [index]) :: rest
    else q :: addMissing rest permission index

/-- Inner loop body of the inspection matrix: check one (setting, permission)
pair against one index pattern, appending to `permitted_settings` or to
`missing_permissions`. -/
def tierStep (can : String → String → Bool) (setting permission : String)
    (acc : List String × List (String × List String)) (index : String) :
    List String × List (String × List String) :=
  if can permission index then (acc.1 ++ [setting], acc.2)
  else (acc.1, addMissing acc.2 permission index)

/-- Outer loop body of the inspection matrix: one keyword row. -/
def matrixStep (can : String → String → Bool) (keywords patterns : List String)
    (acc : List String × List (String × List String)) (sp : String × String) :
    List String × List (String × List String) :=
  if keywords.isEmpty || keywords.contains sp.fst then
    patterns.foldl (tierStep can sp.fst sp.snd) acc
  else acc

/-- The keyword/index permission matrix of `GetIndexApiRequest.inspect`
(its `for setting, permission in self.index_settings.iteritems():` loop). -/
def settingsMatrix (can : String → String → Bool) (keywords patterns : List String) :
    List String × List (String × List String) :=
  index_settings.foldl (matrixStep can keywords patterns) ([], [])

/-- `[s.strip() for s in self.get_match('keywords', '').split(',') if s]`. -/
def keywordsOf (keywordsMatch : String) : List String :=
  ((pySplitChar ',' keywordsMatch).filter (fun s => !s.data.isEmpty)).map pyStrip

/-- Step 1 rewrite: `if index_filter: self.path = self.path.replace(...)`. -/
def narrowPath (path indices : String) (index_filter : FilterString) : String :=
  if index_filter.patterns.isEmpty then path
  else pyReplace path indices index_filter.toStr

/-- The hint text enumerating missing permissions with their indices. -/
def missingHint (missing : List (String × List String)) : String :=
  pyJoin ", " (missing.map (fun p => p.fst ++ " (" ++ pyJoin ", " p.snd ++ ")"))

/-- `GetIndexApiRequest.inspect`.  `can` is the client's permission oracle
(`Client.can`, outside the sources), `create_filter_string` the narrowing
collaborator of step 1 (outside the sources, spec section 4.7), `path` and
`indices` the request state, `keywordsMatch` the text captured for the
`{keywords}` placeholder (empty when absent).  Returns the final request
path or the PermissionError raised. -/
def inspect (can : String → String → Bool)
    (create_filter_string : String → Option FilterString)
    (path indices keywordsMatch : String) : Except PyErr String :=
  match create_filter_string indices with
  | none => Except.error (PyErr.permissionError
      "You are not permitted to access any settings of the given index or indices.")
  | some index_filter =>
    let path1 := narrowPath path indices index_filter
    let keywords := keywordsOf keywordsMatch
    match keywords.find? (fun kw => !(index_settings.any (fun sp => sp.fst == kw))) with
    | some unknown => Except.error (PyErr.permissionError ("Unknown index setting: " ++ unknown))
    | none =>
      let ms := settingsMatrix can keywords index_filter.patterns
      if ms.snd.isEmpty = false then
        Except.error (PyErr.permissionError
          ("You are missing the following permissions: " ++ missingHint ms.snd))
      else if keywords.isEmpty && decide (ms.fst.length < index_settings.length) then
        Except.ok (pyJoin "/" [pyRStripChar '/' path1, pyJoin "," ms.fst])
      else Except.ok path1

/-- Total number of (permission, index) failure records in the
`missing_permissions` map. -/
def missingCount (m : List (String × List String)) : Nat :=
  (m.map (fun p => p.snd.length)).sum

/-! Helper lemmas. -/

theorem pySplitCharAux_ne_nil (sep : Char) (cs acc : List Char) :
    pySplitCharAux sep cs acc ≠ [] := by
  induction cs generalizing acc with
  | nil => simp [pySplitCharAux]
  | cons c cs ih =>
    simp only [pySplitCharAux]
    by_cases h : c == sep
    · simp [h]
    · simp [h, ih]

theorem pySplitChar_ne_nil (sep : Char) (s : String) : pySplitChar sep s ≠ [] := by
  simp [pySplitChar]
  exact pySplitCharAux_ne_nil sep s.data []

theorem populate_ok_name (a : Auth) (c c2 : Client) (h : a.populate c = Except.ok c2) :
    c2.name = c.name := by
  unfold Auth.populate at h
  dsimp only at h
  repeat' split at h
  all_goals first
    | exact Except.noConfusion h
    | (injection h with h; rw [← h])

theorem finish_ok (a : Auth) (populate : Bool) (c : Client) (r : Bool × Client)
    (h : a.finish populate c = Except.ok r) : r.fst = true ∧ r.snd.name = c.name := by
  unfold Auth.finish at h
  by_cases hp : populate = true
  · rw [if_pos hp] at h
    cases hpop : a.populate c with
    | error e => rw [hpop] at h; exact Except.noConfusion h
    | ok c2 =>
      rw [hpop] at h
      have h2 : (Except.ok (true, { c2 with authenticated := true }) :
          Except PyErr (Bool × Client)) = Except.ok r := h
      injection h2 with h2
      rw [← h2]
      exact ⟨rfl, populate_ok_name a c c2 hpop⟩
  · rw [if_neg hp] at h
    have h2 : (Except.ok (true, { c with authenticated := true }) :
        Except PyErr (Bool × Client)) = Except.ok r := h
    injection h2 with h2
    rw [← h2]
    exact ⟨rfl, rfl⟩

theorem finish_no_populate (a : Auth) (c : Client) :
    a.finish false c = Except.ok (true, { c with authenticated := true }) := rfl

/-! Claim theorems. -/

/-- C1: the spec says `_parse_restriction` fails exactly for a segment count
of 0 or more than 4 or a supplied scope segment without plain patterns, and
succeeds on 1-4 segments with plain patterns.  The code's guard
`if not 1 > len(parts) <= 4` is a chained comparison that holds for every
split result (a split always yields at least one segment, so
`1 > len(parts)` is always false), hence parsing raises `RestrictionError`
for every raw source - including the spec's own valid example
`"read/logs-*"`.  This records the divergence: parsing a fresh restriction
always raises, for any raw source. -/
theorem parse_restriction_always_raises :
    (∀ raw : String, (Restriction.fromRaw raw).parse_restriction =
      Except.error (PyErr.restrictionError ("Invalid restriction \"" ++ raw ++ "\""))) ∧
    (Restriction.fromRaw "read/logs-*").parse_restriction =
      Except.error (PyErr.restrictionError "Invalid restriction \"read/logs-*\"") := by
  constructor
  · intro raw
    have hne : pySplitChar '/' raw ≠ [] := pySplitChar_ne_nil '/' raw
    have hpos : 0 < (pySplitChar '/' raw).length := List.length_pos.mpr hne
    have hguard : ¬ (1 > (pySplitChar '/' raw).length ∧ (pySplitChar '/' raw).length ≤ 4) := by
      omega
    simp [Restriction.parse_restriction, Restriction.fromRaw, Restriction.parseParts, hguard]
    intro h _
    exact absurd h hne
  · rfl

/-- C2 counterexample: for a client whose `roles` is null, `can_read` and
`can_write` do not return false - iterating `None` raises a TypeError. -/
theorem can_read_roles_null_counterexample :
    Client.can_read { address := "localhost", port := 5 } "logs" ≠ Except.ok false ∧
    Client.can_write { address := "localhost", port := 5 } "logs" ≠ Except.ok false ∧
    Client.can_read { address := "localhost", port := 5 } "logs" =
      Except.error (PyErr.typeError "NoneType object is not iterable") := by
  refine ⟨fun h => Except.noConfusion h, fun h => Except.noConfusion h, rfl⟩

/-- C2 amended: for every client whose `roles` attribute is null and any
index/type/field arguments, `can_read` and `can_write` raise a TypeError
(iterating `None`) instead of returning false. -/
theorem can_read_roles_null_raises (c : Client) (index : String) (document field : Option String)
    (h : c.roles = none) :
    c.can_read index document field =
      Except.error (PyErr.typeError "NoneType object is not iterable") ∧
    c.can_write index document field =
      Except.error (PyErr.typeError "NoneType object is not iterable") := by
  constructor <;> simp [Client.can_read, Client.can_write, h]

theorem can_read_roles_null_raises_witness :
    ({ address := "localhost", port := 5 } : Client).roles = none ∧
    Client.can_read { address := "localhost", port := 5 } "logs" none none =
      Except.error (PyErr.typeError "NoneType object is not iterable") :=
  ⟨rfl, (can_read_roles_null_raises { address := "localhost", port := 5 } "logs" none none rfl).1⟩

/-- C3: for every restriction state whose parsed mode marks it read-only
(the parse stores `read_only := parts[0] == 'read'`, so a `read` mode yields
`some true`), `permits_write` returns false for all index, type and field
arguments. -/
theorem read_only_never_permits_write (r : Restriction) (index : String)
    (document field : Option String) (h1 : r.parsed = true) (h2 : r.read_only = some true) :
    r.permits_write index document field = Except.ok false := by
  simp [Restriction.permits_write, Restriction.parse_restriction, h1, h2]

theorem read_only_never_permits_write_witness :
    ({ raw_restriction := "read/logs-*", parsed := true, read_only := some true,
       index_patterns := ["logs-*"] } : Restriction).permits_write "logs-2020" none none =
      Except.ok false :=
  read_only_never_permits_write
    { raw_restriction := "read/logs-*", parsed := true, read_only := some true,
      index_patterns := ["logs-*"] } "logs-2020" none none rfl rfl

/-- C4: the single-tier check `_apply_restriction` does return
`any(plain) AND (NOT any(exclude) OR any(include))` for every subject and
pattern triple; but the claim's concrete `permits_write` examples do not
hold on the code: the always-raising parse guard makes them raise
`RestrictionError` instead of returning true/false. -/
theorem apply_restriction_tier_check :
    (∀ (subject : String) (patterns includes excludes : List String),
      apply_restriction subject patterns includes excludes =
        ((patterns.any fun pattern => pattern_match pattern subject) &&
         (!(excludes.any fun pattern => pattern_match pattern subject) ||
          (includes.any fun pattern => pattern_match pattern subject)))) ∧
    (Restriction.fromRaw "write/logs-*,-logs-secret").permits_write "logs-app" =
      Except.error (PyErr.restrictionError
        "Invalid restriction \"write/logs-*,-logs-secret\"") ∧
    (Restriction.fromRaw "write/logs-*,-logs-secret,+logs-secret-readable").permits_write
        "logs-secret-readable" =
      Except.error (PyErr.restrictionError
        "Invalid restriction \"write/logs-*,-logs-secret,+logs-secret-readable\"") := by
  refine ⟨?_, rfl, rfl⟩
  intro subject patterns includes excludes
  simp only [apply_restriction]
  cases hp : patterns.any fun pattern => pattern_match pattern subject <;>
    cases he : excludes.any fun pattern => pattern_match pattern subject <;>
    simp [hp, he]

/-- C5: for a client without credentials, `authenticate` consults
`allow_from`: a missing entry fails without mutating the client; a `None`
entry accepts any port; an explicit port list fails (without mutation)
unless the port is a member.  On a run that returns (population may let the
role-fetch TypeError escape, see `Auth.populate`), the result carries the
`True` flag and a client whose name is `host:port` for an explicit port
list and `host` for a `None` entry, with `host` the resolved hostname or
the raw address as fallback; with population switched off the successful
result is established unconditionally. -/
theorem authenticate_no_credentials (a : Auth) (resolver : String → Option String)
    (populate : Bool) (c : Client) (h : c.username = none ∨ c.password = none) :
    ((a.allow_from.find? (fun p => p.fst == c.address)) = none →
      a.authenticate resolver populate c = Except.ok (false, c)) ∧
    (∀ k, (a.allow_from.find? (fun p => p.fst == c.address)) = some (k, none) →
      (∀ r, a.authenticate resolver populate c = Except.ok r →
        r.fst = true ∧ r.snd.name = some ((resolver c.address).getD c.address)) ∧
      (populate = false →
        a.authenticate resolver populate c = Except.ok (true,
          { c with name := some ((resolver c.address).getD c.address),
                   authenticated := true }))) ∧
    (∀ k ports, (a.allow_from.find? (fun p => p.fst == c.address)) = some (k, some ports) →
      c.port ∉ ports →
      a.authenticate resolver populate c = Except.ok (false, c)) ∧
    (∀ k ports, (a.allow_from.find? (fun p => p.fst == c.address)) = some (k, some ports) →
      c.port ∈ ports →
      (∀ r, a.authenticate resolver populate c = Except.ok r →
        r.fst = true ∧
        r.snd.name = some (((resolver c.address).getD c.address) ++ ":" ++ toString c.port)) ∧
      (populate = false →
        a.authenticate resolver populate c = Except.ok (true,
          { c with
              name := some (((resolver c.address).getD c.address) ++ ":" ++ toString c.port),
              authenticated := true }))) := by
  have hcred : (c.username.isNone || c.password.isNone) = true := by
    cases h with
    | inl h => simp [h]
    | inr h => simp [h]
  refine ⟨?_, ?_, ?_, ?_⟩
  · intro hfind
    simp [Auth.authenticate, hcred, hfind]
  · intro k hfind
    have hauth : a.authenticate resolver populate c =
        a.finish populate { c with name := some ((resolver c.address).getD c.address) } := by
      simp [Auth.authenticate, hcred, hfind]
    constructor
    · intro r hr
      rw [hauth] at hr
      exact finish_ok a populate _ r hr
    · intro hp
      subst hp
      rw [hauth]
      exact finish_no_populate a _
  · intro k ports hfind hport
    simp [Auth.authenticate, hcred, hfind, hport]
  · intro k ports hfind hport
    have hauth : a.authenticate resolver populate c =
        a.finish populate { c with name := some (((resolver c.address).getD c.address) ++ ":" ++ toString c.port) } := by
      simp [Auth.authenticate, hcred, hfind, hport]
    constructor
    · intro r hr
      rw [hauth] at hr
      exact finish_ok a populate _ r hr
    · intro hp
      subst hp
      rw [hauth]
      exact finish_no_populate a _

theorem authenticate_no_credentials_witness :
    Auth.authenticate
      { allow_from := [], group_backend := none,
        role_backend := fun _ => Except.ok (some []) }
      (fun _ => some "host1") true { address := "10.0.0.1", port := 1 } =
      Except.ok (false, { address := "10.0.0.1", port := 1 }) ∧
    Auth.authenticate
      { allow_from := [("10.0.0.1", none)], group_backend := none,
        role_backend := fun _ => Except.ok (some []) }
      (fun _ => some "host1") false { address := "10.0.0.1", port := 1 } =
      Except.ok (true, { address := "10.0.0.1", port := 1, name := some "host1", authenticated := true }) ∧
    ((true, ({ address := "10.0.0.1", port := 1, name := some "host1", authenticated := true, groups := some [], roles := some [] } : Client)).fst = true ∧
      (true, ({ address := "10.0.0.1", port := 1, name := some "host1", authenticated := true, groups := some [], roles := some [] } : Client)).snd.name = some "host1") ∧
    Auth.authenticate
      { allow_from := [("10.0.0.1", some [9200])], group_backend := none,
        role_backend := fun _ => Except.ok (some []) }
      (fun _ => some "host1") false { address := "10.0.0.1", port := 9200 } =
      Except.ok (true, { address := "10.0.0.1", port := 9200, name := some "host1:9200", authenticated := true }) ∧
    Auth.authenticate
      { allow_from := [("10.0.0.1", some [9200])], group_backend := none,
        role_backend := fun _ => Except.ok (some []) }
      (fun _ => some "host1") true { address := "10.0.0.1", port := 1 } =
      Except.ok (false, { address := "10.0.0.1", port := 1 }) := by
  refine ⟨?_, ?_, ?_, ?_, ?_⟩
  · exact (authenticate_no_credentials
      { allow_from := [], group_backend := none,
        role_backend := fun _ => Except.ok (some []) }
      (fun _ => some "host1") true { address := "10.0.0.1", port := 1 } (Or.inl rfl)).1 rfl
  · exact ((authenticate_no_credentials
      { allow_from := [("10.0.0.1", none)], group_backend := none,
        role_backend := fun _ => Except.ok (some []) }
      (fun _ => some "host1") false { address := "10.0.0.1", port := 1 }
      (Or.inl rfl)).2.1 "10.0.0.1" rfl).2 rfl
  · exact ((authenticate_no_credentials
      { allow_from := [("10.0.0.1", none)], group_backend := none,
        role_backend := fun _ => Except.ok (some []) }
      (fun _ => some "host1") true { address := "10.0.0.1", port := 1 }
      (Or.inl rfl)).2.1 "10.0.0.1" rfl).1
      (true, ({ address := "10.0.0.1", port := 1, name := some "host1", authenticated := true, groups := some [], roles := some [] } : Client)) rfl
  · exact ((authenticate_no_credentials
      { allow_from := [("10.0.0.1", some [9200])], group_backend := none,
        role_backend := fun _ => Except.ok (some []) }
      (fun _ => some "host1") false { address := "10.0.0.1", port := 9200 }
      (Or.inl rfl)).2.2.2 "10.0.0.1" [9200] rfl (by decide)).2 rfl
  · exact (authenticate_no_credentials
      { allow_from := [("10.0.0.1", some [9200])], group_backend := none,
        role_backend := fun _ => Except.ok (some []) }
      (fun _ => some "host1") true { address := "10.0.0.1", port := 1 }
      (Or.inl rfl)).2.2.1 "10.0.0.1" [9200] rfl (by decide)

theorem mem_getLastD (l : List String) (d : String) (h : l ≠ []) : l.getLastD d ∈ l := by
  induction l generalizing d with
  | nil => exact absurd rfl h
  | cons x xs ih =>
    rw [List.getLastD_cons]
    cases hxs : xs with
    | nil => simp
    | cons y ys =>
      subst hxs
      exact List.mem_cons_of_mem x (ih x (by simp))

theorem anyNeqInt_eq_some_false (vs : List String) (n : Int)
    (h : anyNeqInt vs n = some false) : ∀ v ∈ vs, pyInt v = some n := by
  induction vs with
  | nil => simp
  | cons v vs ih =>
    intro w hw
    cases hp : pyInt v with
    | none => simp [anyNeqInt, hp] at h
    | some m =>
      by_cases hm : m = n
      · subst hm
        simp only [anyNeqInt, hp, ne_eq, not_true_eq_false, if_false, reduceIte] at h
        rcases List.mem_cons.mp hw with h1 | h1
        · subst h1; exact hp
        · exact ih h w h1
      · simp [anyNeqInt, hp, hm] at h

/-- C7: `has_proper_framing` is false when Content-Length and
Transfer-Encoding are both present, false when the Content-Length
occurrences do not all parse to one common non-negative integer (negative,
non-integer or mutually inconsistent values), false for a request with no
paired response whose Transfer-Encoding does not normalize to `chunked`,
and true for a request carrying `Transfer-Encoding: chunked` alone. -/
theorem has_proper_framing_spec :
    (∀ (request : HttpHeaders) (response : Option HttpHeaders),
      (headersOf request response).containsHeader "Content-Length" = true →
      (headersOf request response).containsHeader "Transfer-Encoding" = true →
      has_proper_framing request response = false) ∧
    (∀ (request : HttpHeaders) (response : Option HttpHeaders),
      (headersOf request response).containsHeader "Content-Length" = true →
      (∀ n : Int, 0 ≤ n →
        ¬ (∀ v ∈ (headersOf request response).getheaders "Content-Length", pyInt v = some n)) →
      has_proper_framing request response = false) ∧
    (∀ request : HttpHeaders,
      request.containsHeader "Transfer-Encoding" = true →
      pyLower (pyStrip ((request.getitem "Transfer-Encoding").getD "")) ≠ "chunked" →
      has_proper_framing request none = false) ∧
    has_proper_framing { dict := [("transfer-encoding", "chunked")] } none = true := by
  refine ⟨?_, ?_, ?_, rfl⟩
  · intro request response hCL hTE
    cases hcl : clPass (headersOf request response) <;>
      simp [has_proper_framing, hCL, hTE, hcl]
  · intro request response hCL hbad
    have hclF : clPass (headersOf request response) = false := by
      obtain ⟨v, hv⟩ : ∃ v, (headersOf request response).lookup "Content-Length" = some v := by
        cases hl : (headersOf request response).lookup "Content-Length" with
        | none =>
          rw [HttpHeaders.containsHeader, hl] at hCL
          exact absurd hCL (by simp)
        | some v => exact ⟨v, rfl⟩
      have hget : (headersOf request response).getitem "Content-Length" = some (lastSeg v) := by
        simp [HttpHeaders.getitem, hv]
      have hheaders : (headersOf request response).getheaders "Content-Length" =
          pySplitCommaSpace v := by
        simp [HttpHeaders.getheaders, hv]
      cases hocc : pySplitCommaSpace v with
      | nil =>
        exfalso
        refine hbad 0 le_rfl ?_
        intro w hw
        rw [hheaders, hocc] at hw
        exact absurd hw (List.not_mem_nil w)
      | cons w ws =>
        cases hpi : pyInt (lastSeg v) with
        | none => simp [clPass, hget, hpi]
        | some cl =>
          by_cases hneg : cl < 0
          · simp [clPass, hget, hpi, hneg]
          · have hex : ∃ u ∈ w :: ws, ¬ (pyInt u = some cl) := by
              have hb := hbad cl (by omega)
              rw [hheaders, hocc] at hb
              push_neg at hb
              exact hb
            have hnf : anyNeqInt (w :: ws) cl ≠ some false := by
              intro hf
              obtain ⟨u, hu, hune⟩ := hex
              exact hune (anyNeqInt_eq_some_false (w :: ws) cl hf u hu)
            cases han : anyNeqInt (w :: ws) cl with
            | none => simp [clPass, hget, hpi, hneg, hheaders, hocc, han]
            | some b =>
              cases b with
              | false => exact absurd han hnf
              | true => simp [clPass, hget, hpi, hneg, hheaders, hocc, han]
    simp [has_proper_framing, hCL, hclF]
  · intro request hTE hchunk
    cases hF : HttpHeaders.containsHeader request "Content-Length" <;>
      cases hcl : clPass request <;>
      simp [has_proper_framing, headersOf, hF, hcl, hTE, bne_iff_ne, hchunk]

theorem has_proper_framing_spec_witness :
    has_proper_framing
      { dict := [("content-length", "5"), ("transfer-encoding", "identity")] } none = false ∧
    has_proper_framing { dict := [("content-length", "-5")] } none = false ∧
    has_proper_framing { dict := [("content-length", "abc")] } none = false ∧
    has_proper_framing { dict := [("content-length", "5, 6")] } none = false ∧
    has_proper_framing { dict := [("transfer-encoding", "identity")] } none = false := by
  refine ⟨?_, ?_, ?_, ?_, ?_⟩
  · exact has_proper_framing_spec.1
      { dict := [("content-length", "5"), ("transfer-encoding", "identity")] } none rfl rfl
  · refine has_proper_framing_spec.2.1 { dict := [("content-length", "-5")] } none rfl ?_
    intro n hn hall
    have h5 := hall "-5" (by
      rw [show (headersOf { dict := [("content-length", "-5")] } none).getheaders
        "Content-Length" = ["-5"] from rfl]
      simp)
    rw [show pyInt "-5" = some (-5) from rfl] at h5
    injection h5 with h5
    omega
  · refine has_proper_framing_spec.2.1 { dict := [("content-length", "abc")] } none rfl ?_
    intro n hn hall
    have hx := hall "abc" (by
      rw [show (headersOf { dict := [("content-length", "abc")] } none).getheaders
        "Content-Length" = ["abc"] from rfl]
      simp)
    rw [show pyInt "abc" = none from rfl] at hx
    exact Option.noConfusion hx
  · refine has_proper_framing_spec.2.1 { dict := [("content-length", "5, 6")] } none rfl ?_
    intro n hn hall
    have h5 := hall "5" (by
      rw [show (headersOf { dict := [("content-length", "5, 6")] } none).getheaders
        "Content-Length" = ["5", "6"] from rfl]
      simp)
    have h6 := hall "6" (by
      rw [show (headersOf { dict := [("content-length", "5, 6")] } none).getheaders
        "Content-Length" = ["5", "6"] from rfl]
      simp)
    rw [show pyInt "5" = some 5 from rfl] at h5
    rw [show pyInt "6" = some 6 from rfl] at h6
    injection h5 with h5
    injection h6 with h6
    omega
  · exact has_proper_framing_spec.2.2.1 { dict := [("transfer-encoding", "identity")] } rfl
      (by decide)

/-- C8: the claim (and the method's own docstring) say `extend_via_field`
never discards an existing Via entry; but the code reads the existing value
through `get`, which keeps only the last `, `-segment, so with two prior
entries the first one is dropped. -/
theorem extend_via_field_drops_prior_entry :
    "1.0 alpha" ∈ HttpHeaders.getheaders { dict := [("via", "1.0 alpha, 1.1 beta")] } "Via" ∧
    (HttpHeaders.extend_via_field { dict := [("via", "1.0 alpha, 1.1 beta")] }
        "1.1" "gamma" none).getheaders "Via" = ["1.1 beta", "1.1 gamma"] ∧
    "1.0 alpha" ∉ (HttpHeaders.extend_via_field { dict := [("via", "1.0 alpha, 1.1 beta")] }
        "1.1" "gamma" none).getheaders "Via" := by
  decide

theorem find?_filter_not_beq (l : List (String × String)) (dk nk : String) :
    (l.filter (fun p => !(p.fst == dk))).find? (fun p => p.fst == nk) =
      if nk == dk then none else l.find? (fun p => p.fst == nk) := by
  induction l with
  | nil => by_cases hnd : (nk == dk) = true <;> simp [hnd]
  | cons x xs ih =>
    by_cases hxd : (x.fst == dk) = true
    · have hxd' : x.fst = dk := by simpa using hxd
      rw [List.filter_cons_of_neg (by simp [hxd]), ih]
      by_cases hnd : (nk == dk) = true
      · simp [hnd]
      · have hnd' : ¬ nk = dk := by simpa using hnd
        have hxn : (x.fst == nk) = false := by
          simp [hxd']
          exact fun hh => hnd' hh.symm
        simp [hnd, hxn]
    · rw [List.filter_cons_of_pos (by simp [hxd])]
      by_cases hxn : (x.fst == nk) = true
      · by_cases hnd : (nk == dk) = true
        · exfalso
          have h1 : x.fst = nk := by simpa using hxn
          have h2 : nk = dk := by simpa using hnd
          rw [h1, h2] at hxd
          simp at hxd
        · rw [List.find?_cons_of_pos _ (by simp [hxn]), if_neg (by simpa using hnd),
            List.find?_cons_of_pos _ (by simp [hxn])]
      · rw [List.find?_cons_of_neg _ (by simp [hxn]), ih]
        by_cases hnd : (nk == dk) = true
        · simp [hnd]
        · rw [if_neg (by simpa using hnd), if_neg (by simpa using hnd),
            List.find?_cons_of_neg _ (by simp [hxn])]

theorem lookup_delitem (h : HttpHeaders) (d n : String) :
    (h.delitem d).lookup n = if pyLower n == pyLower d then none else h.lookup n := by
  simp only [HttpHeaders.delitem, HttpHeaders.lookup]
  rw [find?_filter_not_beq]
  by_cases hc : (pyLower n == pyLower d) = true <;> simp [hc]

theorem ciSet_ne_nil (m : List (String × ConnOpt)) (k : String) (v : ConnOpt) :
    ciSet m k v ≠ [] := by
  simp only [ciSet]
  by_cases hm : (m.any fun q => pyLower q.fst == pyLower k) = true
  · rw [if_pos hm]
    intro hcon
    rw [List.map_eq_nil_iff] at hcon
    rw [hcon] at hm
    simp at hm
  · rw [if_neg hm]
    simp

theorem connStep_ok_snd_lookup {s s' : List (String × ConnOpt) × HttpHeaders} {o : String}
    (hstep : HttpHeaders.connStep s o = Except.ok s') (n : String) :
    s'.snd.lookup n = if pyLower n == pyLower o then none else s.snd.lookup n := by
  obtain ⟨opts, hh⟩ := s
  simp only [HttpHeaders.connStep] at hstep
  by_cases hc : hh.containsHeader o = true
  · rw [if_pos hc] at hstep
    by_cases hk : (pyLower o == "keep-alive") = true
    · rw [if_pos hk] at hstep
      cases hpk : parseKeepAlive (hh.getheaders o) with
      | error e => rw [hpk] at hstep; exact Except.noConfusion hstep
      | ok pairs =>
        rw [hpk] at hstep
        injection hstep with hstep
        rw [← hstep]
        exact lookup_delitem hh o n
    · rw [if_neg hk] at hstep
      cases hgi : hh.getitem o with
      | none => rw [hgi] at hstep; exact Except.noConfusion hstep
      | some v =>
        rw [hgi] at hstep
        injection hstep with hstep
        rw [← hstep]
        exact lookup_delitem hh o n
  · rw [if_neg hc] at hstep
    have hnone : hh.lookup o = none := by
      revert hc
      rw [HttpHeaders.containsHeader]
      cases hh.lookup o <;> simp
    have hfin : s'.snd = hh := by
      by_cases hk : (pyLower o == "keep-alive") = true
      · rw [if_pos hk] at hstep
        injection hstep with hstep
        rw [← hstep]
      · rw [if_neg hk] at hstep
        by_cases hcl : (pyLower o == "close") = true
        · rw [if_pos hcl] at hstep
          injection hstep with hstep
          rw [← hstep]
        · rw [if_neg hcl] at hstep
          injection hstep with hstep
          rw [← hstep]
    rw [hfin]
    by_cases hn : (pyLower n == pyLower o) = true
    · have heq : pyLower n = pyLower o := by simpa using hn
      rw [if_pos hn, HttpHeaders.lookup, heq]
      rw [HttpHeaders.lookup] at hnone
      exact hnone
    · rw [if_neg (by simpa using hn)]

theorem connStep_ok_empty {s s' : List (String × ConnOpt) × HttpHeaders} {o : String}
    (hstep : HttpHeaders.connStep s o = Except.ok s') (hemp : s'.fst = []) :
    s' = s ∧ s.fst = [] := by
  obtain ⟨opts, hh⟩ := s
  simp only [HttpHeaders.connStep] at hstep
  by_cases hc : hh.containsHeader o = true
  · rw [if_pos hc] at hstep
    by_cases hk : (pyLower o == "keep-alive") = true
    · rw [if_pos hk] at hstep
      cases hpk : parseKeepAlive (hh.getheaders o) with
      | error e => rw [hpk] at hstep; exact Except.noConfusion hstep
      | ok pairs =>
        rw [hpk] at hstep
        injection hstep with hstep
        rw [← hstep] at hemp
        exact absurd hemp (ciSet_ne_nil opts o (ConnOpt.table pairs))
    · rw [if_neg hk] at hstep
      cases hgi : hh.getitem o with
      | none => rw [hgi] at hstep; exact Except.noConfusion hstep
      | some v =>
        rw [hgi] at hstep
        injection hstep with hstep
        rw [← hstep] at hemp
        exact absurd hemp (ciSet_ne_nil opts o (ConnOpt.str v))
  · rw [if_neg hc] at hstep
    by_cases hk : (pyLower o == "keep-alive") = true
    · rw [if_pos hk] at hstep
      injection hstep with hstep
      rw [← hstep] at hemp
      exact absurd hemp (ciSet_ne_nil opts o ConnOpt.null)
    · rw [if_neg hk] at hstep
      by_cases hcl : (pyLower o == "close") = true
      · rw [if_pos hcl] at hstep
        injection hstep with hstep
        rw [← hstep] at hemp
        exact absurd hemp (ciSet_ne_nil opts o ConnOpt.null)
      · rw [if_neg hcl] at hstep
        injection hstep with hstep
        exact ⟨hstep.symm, by rw [← hstep] at hemp; exact hemp⟩

theorem connLoop_ok_lookup {os : List String}
    {s s' : List (String × ConnOpt) × HttpHeaders}
    (hloop : connLoop os s = Except.ok s') (n : String)
    (hno : ∀ o ∈ os, (pyLower n == pyLower o) = false) :
    s'.snd.lookup n = s.snd.lookup n := by
  induction os generalizing s with
  | nil =>
    simp only [connLoop] at hloop
    injection hloop with hloop
    rw [hloop]
  | cons o os ih =>
    simp only [connLoop] at hloop
    cases hstep : HttpHeaders.connStep s o with
    | error e => rw [hstep] at hloop; exact Except.noConfusion hloop
    | ok s1 =>
      rw [hstep] at hloop
      rw [ih hloop (fun o' ho' => hno o' (List.mem_cons_of_mem o ho')),
        connStep_ok_snd_lookup hstep n, if_neg (by simp [hno o (List.mem_cons_self o os)])]

theorem connLoop_ok_none_preserved {os : List String}
    {s s' : List (String × ConnOpt) × HttpHeaders}
    (hloop : connLoop os s = Except.ok s') (n : String)
    (hn : s.snd.lookup n = none) : s'.snd.lookup n = none := by
  induction os generalizing s with
  | nil =>
    simp only [connLoop] at hloop
    injection hloop with hloop
    rw [hloop] at hn
    exact hn
  | cons o os ih =>
    simp only [connLoop] at hloop
    cases hstep : HttpHeaders.connStep s o with
    | error e => rw [hstep] at hloop; exact Except.noConfusion hloop
    | ok s1 =>
      rw [hstep] at hloop
      refine ih hloop ?_
      rw [connStep_ok_snd_lookup hstep n]
      by_cases hcond : (pyLower n == pyLower o) = true
      · rw [if_pos hcond]
      · rw [if_neg (by simpa using hcond)]
        exact hn

theorem connLoop_ok_contains {os : List String}
    {s s' : List (String × ConnOpt) × HttpHeaders}
    (hloop : connLoop os s = Except.ok s') :
    ∀ o ∈ os, s'.snd.containsHeader o = false := by
  induction os generalizing s with
  | nil => simp
  | cons o os ih =>
    intro o' ho'
    simp only [connLoop] at hloop
    cases hstep : HttpHeaders.connStep s o with
    | error e => rw [hstep] at hloop; exact Except.noConfusion hloop
    | ok s1 =>
      rw [hstep] at hloop
      rcases List.mem_cons.mp ho' with h1 | h1
      · subst h1
        have h2 : s1.snd.lookup o' = none := by
          rw [connStep_ok_snd_lookup hstep o', if_pos (by simp)]
        have h3 := connLoop_ok_none_preserved hloop o' h2
        rw [HttpHeaders.containsHeader, h3]
        rfl
      · exact ih hloop o' h1

theorem connLoop_ok_empty {os : List String}
    {s s' : List (String × ConnOpt) × HttpHeaders}
    (hloop : connLoop os s = Except.ok s') (hemp : s'.fst = []) : s' = s := by
  induction os generalizing s with
  | nil =>
    simp only [connLoop] at hloop
    injection hloop with hloop
    rw [hloop]
  | cons o os ih =>
    simp only [connLoop] at hloop
    cases hstep : HttpHeaders.connStep s o with
    | error e => rw [hstep] at hloop; exact Except.noConfusion hloop
    | ok s1 =>
      rw [hstep] at hloop
      have hs1 := ih hloop
      obtain ⟨heq, _⟩ := connStep_ok_empty hstep (by rw [← hs1]; exact hemp)
      exact hs1.trans heq

/-- C9 counterexample: the claim says `extract_connection_options` always
deletes the `Connection` header itself; but the deletion is guarded by
`if options:`, so with `Connection: upgrade` and no `Upgrade` header present
no option is recorded and `Connection` survives. -/
theorem extract_connection_options_counterexample :
    HttpHeaders.extract_connection_options { dict := [("connection", "upgrade")] } =
      Except.ok ([], { dict := [("connection", "upgrade")] }) ∧
    HttpHeaders.containsHeader { dict := [("connection", "upgrade")] } "Connection" = true :=
  ⟨rfl, rfl⟩

/-- C9 amended: on a successful run `extract_connection_options` removes
every header named by the `Connection` header, returns the recorded options,
deletes the `Connection` header itself when at least one option was recorded
(and returns the header set unchanged when none was), and leaves every
header not named by the `Connection` header - other than `Connection`
itself - unchanged. -/
theorem extract_connection_options_spec (h : HttpHeaders)
    (opts : List (String × ConnOpt)) (h' : HttpHeaders)
    (hok : h.extract_connection_options = Except.ok (opts, h')) :
    (∀ o ∈ h.getheaders "Connection", h'.containsHeader o = false) ∧
    (opts = [] → h' = h) ∧
    (opts ≠ [] → h'.containsHeader "Connection" = false) ∧
    (∀ n, (∀ o ∈ h.getheaders "Connection", (pyLower n == pyLower o) = false) →
      (pyLower n == "connection") = false → h'.lookup n = h.lookup n) := by
  simp only [HttpHeaders.extract_connection_options] at hok
  cases hloop : connLoop (h.getheaders "Connection") ([], h) with
  | error e => rw [hloop] at hok; exact Except.noConfusion hok
  | ok s =>
    rw [hloop] at hok
    dsimp only at hok
    by_cases hemp : s.fst.isEmpty = true
    · rw [if_pos hemp] at hok
      injection hok with hok
      have hnil : s.fst = [] := by
        rw [List.isEmpty_iff] at hemp
        exact hemp
      have hbase := connLoop_ok_empty hloop hnil
      have hopts : opts = [] := by rw [hok] at hnil; exact hnil
      have hh' : h' = h := by
        have := congrArg Prod.snd hbase
        rw [hok] at this
        exact this
      refine ⟨?_, fun _ => hh', fun hne => absurd hopts hne, ?_⟩
      · intro o ho
        have := connLoop_ok_contains hloop o ho
        rw [hok] at this
        exact this
      · intro n _ _
        rw [hh']
    · rw [if_neg hemp] at hok
      injection hok with hok
      have hfst : s.fst = opts := congrArg Prod.fst hok
      have hsnd : s.snd.delitem "Connection" = h' := congrArg Prod.snd hok
      have hlconn : (pyLower "Connection" : String) = "connection" := rfl
      refine ⟨?_, ?_, ?_, ?_⟩
      · intro o ho
        have hs2 := connLoop_ok_contains hloop o ho
        rw [← hsnd, HttpHeaders.containsHeader, lookup_delitem]
        by_cases hoc : (pyLower o == pyLower "Connection") = true
        · rw [if_pos hoc]
          rfl
        · rw [if_neg (by simpa using hoc)]
          rw [HttpHeaders.containsHeader] at hs2
          exact hs2
      · intro hoe
        exfalso
        rw [hoe] at hfst
        rw [hfst] at hemp
        simp at hemp
      · intro _
        rw [← hsnd, HttpHeaders.containsHeader, lookup_delitem, if_pos (by simp)]
        rfl
      · intro n hno hnc
        rw [← hsnd, lookup_delitem, hlconn, if_neg (by simpa using hnc),
          connLoop_ok_lookup hloop n hno]

theorem extract_connection_options_spec_witness :
    HttpHeaders.containsHeader { dict := [("other", "z")] } "X-Foo" = false ∧
    HttpHeaders.containsHeader { dict := [("other", "z")] } "Connection" = false ∧
    HttpHeaders.lookup { dict := [("other", "z")] } "other" =
      HttpHeaders.lookup
        { dict := [("connection", "close, X-Foo"), ("x-foo", "1"), ("other", "z")] } "other" := by
  have hs := extract_connection_options_spec
    { dict := [("connection", "close, X-Foo"), ("x-foo", "1"), ("other", "z")] }
    [("close", ConnOpt.null), ("X-Foo", ConnOpt.str "1")] { dict := [("other", "z")] } rfl
  exact ⟨hs.1 "X-Foo" (by decide), hs.2.2.1 (by decide), hs.2.2.2 "other" (by decide) (by decide)⟩

theorem addMissing_count (m : List (String × List String)) (permission index : String) :
    missingCount (addMissing m permission index) = missingCount m + 1 := by
  induction m with
  | nil => simp [addMissing, missingCount]
  | cons q rest ih =>
    by_cases hq : (q.fst == permission) = true
    · simp [addMissing, hq, missingCount]
      omega
    · have hq' : (q.fst == permission) = false := by simpa using hq
      simp only [addMissing, hq', Bool.false_eq_true, if_false, reduceIte, missingCount,
        List.map_cons, List.sum_cons] at ih ⊢
      omega

theorem tierLoop_count (can : String → String → Bool) (setting permission : String)
    (patterns : List String) (acc : List String × List (String × List String)) :
    ((patterns.foldl (tierStep can setting permission) acc).1.length +
      missingCount (patterns.foldl (tierStep can setting permission) acc).2) =
      acc.1.length + missingCount acc.2 + patterns.length := by
  induction patterns generalizing acc with
  | nil => simp
  | cons x xs ih =>
    rw [List.foldl_cons, ih]
    by_cases hc : can permission x = true
    · simp [tierStep, hc]
      omega
    · simp [tierStep, hc, addMissing_count]
      omega

theorem settingsMatrix_count_no_keywords (can : String → String → Bool)
    (patterns : List String) :
    (settingsMatrix can [] patterns).1.length + missingCount (settingsMatrix can [] patterns).2 =
      index_settings.length * patterns.length := by
  suffices h : ∀ (settings : List (String × String))
      (acc : List String × List (String × List String)),
      ((settings.foldl (matrixStep can [] patterns) acc).1.length +
        missingCount (settings.foldl (matrixStep can [] patterns) acc).2) =
        acc.1.length + missingCount acc.2 + settings.length * patterns.length by
    have h2 := h index_settings ([], [])
    simpa [settingsMatrix, missingCount] using h2
  intro settings
  induction settings with
  | nil => intro acc; simp
  | cons sp sps ih =>
    intro acc
    rw [List.foldl_cons, ih]
    simp only [matrixStep, List.isEmpty_nil, Bool.true_or, if_true, reduceIte]
    rw [tierLoop_count, List.length_cons, Nat.succ_mul]
    omega

/-- C6: in the get-index inspection, any recorded failing
(permission, index pattern) pair denies the whole request with a
PermissionError enumerating every missing permission with its index
patterns, even when other keyword/index combinations passed; in particular
a client holding the whole settings-read family on idx-1/idx-2 except the
settings permission on idx-2 is denied for a keyword-less request on both
indices, with the error naming the settings permission and idx-2. -/
theorem inspect_missing_denies_all
    (can : String → String → Bool) (create_filter_string : String → Option FilterString)
    (path indices keywordsMatch : String) (fs : FilterString)
    (hcf : create_filter_string indices = some fs)
    (hkw : (keywordsOf keywordsMatch).find?
      (fun kw => !(index_settings.any (fun sp => sp.fst == kw))) = none)
    (hmiss : (settingsMatrix can (keywordsOf keywordsMatch) fs.patterns).snd ≠ []) :
    (inspect can create_filter_string path indices keywordsMatch =
      Except.error (PyErr.permissionError ("You are missing the following permissions: " ++
        missingHint (settingsMatrix can (keywordsOf keywordsMatch) fs.patterns).snd))) ∧
    inspect (fun perm idx => !(perm == "api/indices/get/settings" && idx == "idx-2"))
      (fun _ => some { patterns := ["idx-1", "idx-2"] }) "/idx-1,idx-2" "idx-1,idx-2" "" =
      Except.error (PyErr.permissionError
        "You are missing the following permissions: api/indices/get/settings (idx-2)") := by
  refine ⟨?_, rfl⟩
  have hne : ((settingsMatrix can (keywordsOf keywordsMatch) fs.patterns).snd.isEmpty = false) := by
    cases h2 : (settingsMatrix can (keywordsOf keywordsMatch) fs.patterns).snd.isEmpty
    · rfl
    · rw [List.isEmpty_iff] at h2
      exact absurd h2 hmiss
  simp only [inspect, hcf, hkw, hne, if_true, reduceIte]

theorem inspect_missing_denies_all_witness :
    inspect (fun _ _ => false) (fun _ => some { patterns := ["i1"] }) "/i1" "i1" "" =
      Except.error (PyErr.permissionError ("You are missing the following permissions: " ++
        missingHint (settingsMatrix (fun _ _ => false) (keywordsOf "") ["i1"]).snd)) :=
  (inspect_missing_denies_all (fun _ _ => false) (fun _ => some { patterns := ["i1"] })
    "/i1" "i1" "" { patterns := ["i1"] } rfl rfl (by decide)).1

/-- C10: when no explicit keywords were requested and the narrowed index
filter has at least one pattern, a non-raising run of the get-index
inspection never appends keyword names to the outgoing path: success forces
the missing-permissions map empty, so the flat permitted-record count is
`4 * patterns` which is at least the keyword count 4, and the step-5 append
condition is false. -/
theorem inspect_no_keywords_no_append
    (can : String → String → Bool) (create_filter_string : String → Option FilterString)
    (path indices keywordsMatch : String) (fs : FilterString) (p : String)
    (hcf : create_filter_string indices = some fs)
    (hkw : keywordsOf keywordsMatch = [])
    (hpat : fs.patterns ≠ [])
    (hok : inspect can create_filter_string path indices keywordsMatch = Except.ok p) :
    p = narrowPath path indices fs := by
  simp only [inspect, hcf, hkw] at hok
  have hcount := settingsMatrix_count_no_keywords can fs.patterns
  by_cases hemph : (settingsMatrix can [] fs.patterns).snd.isEmpty = true
  · have hsnd : (settingsMatrix can [] fs.patterns).snd = [] := by
      rwa [List.isEmpty_iff] at hemph
    rw [hsnd] at hcount
    simp only [missingCount, List.map_nil, List.sum_nil, Nat.add_zero] at hcount
    have hn : 1 ≤ fs.patterns.length := List.length_pos.mpr hpat
    have hge : ¬ ((settingsMatrix can [] fs.patterns).fst.length < index_settings.length) := by
      rw [show index_settings.length = 4 from rfl]
      rw [show index_settings.length = 4 from rfl] at hcount
      omega
    rw [if_neg (by rw [hsnd]; simp), if_neg (by simp [hge])] at hok
    injection hok with hok
    exact hok.symm
  · have hne : (settingsMatrix can [] fs.patterns).snd.isEmpty = false := by
      cases h2 : (settingsMatrix can [] fs.patterns).snd.isEmpty
      · rfl
      · exact absurd h2 hemph
    rw [if_pos hne] at hok
    exact Except.noConfusion hok

theorem inspect_no_keywords_no_append_witness :
    "/idx-1" = narrowPath "/idx-1" "idx-1" { patterns := ["idx-1"] } :=
  inspect_no_keywords_no_append (fun _ _ => true) (fun _ => some { patterns := ["idx-1"] })
    "/idx-1" "idx-1" "" { patterns := ["idx-1"] } "/idx-1" rfl rfl (by decide) rfl

end ElasticArmor
